import Mathlib

/-!
Verification of the gitignored CLI core: envelope cryptography, key
distribution, snapshot versioning, diffing, and the watch loop.

Byte strings (`Uint8Array` values in the source) are modelled as lists of
natural numbers.  The tweetnacl primitives (`secretbox`, `box`) and the
base64/UTF-8 codecs are external library calls; they are modelled from the
spec as executable Lean functions that satisfy the contract the spec
states for them (authenticated encryption failing closed, Diffie-Hellman
key agreement, injective encodings).  Everything in `src/` is translated
directly from the TypeScript.
-/

/-- Byte strings (`Uint8Array` in the source). -/
abbrev Bytes := List Nat

/-- Base-257 value of a byte list; injective on lists of genuine bytes. -/
def encodeBytes : Bytes → Nat
  | [] => 0
  | b :: rest => b + 1 + 257 * encodeBytes rest

/-- Base-257 digits of a natural number, with explicit fuel so that the
recursion is structural and kernel-computable. -/
def decodeNatAux : Nat → Nat → Bytes
  | 0, _ => []
  | _ + 1, 0 => []
  | fuel + 1, v + 1 => v % 257 :: decodeNatAux fuel (v / 257)

/-- Right inverse of `encodeBytes`. -/
def decodeNat (v : Nat) : Bytes := decodeNatAux v v

theorem encodeBytes_decodeNatAux : ∀ (fuel v : Nat), v ≤ fuel →
    encodeBytes (decodeNatAux fuel v) = v := by
  intro fuel
  induction fuel with
  | zero => intro v hv; interval_cases v; simp [decodeNatAux, encodeBytes]
  | succ f ih =>
    intro v hv
    match v with
    | 0 => simp [decodeNatAux, encodeBytes]
    | w + 1 =>
      have hdiv : w / 257 ≤ f := by
        have h1 : w / 257 ≤ w := Nat.div_le_self w 257
        omega
      simp only [decodeNatAux, encodeBytes, ih (w / 257) hdiv]
      omega

theorem encodeBytes_decodeNat (v : Nat) : encodeBytes (decodeNat v) = v :=
  encodeBytes_decodeNatAux v v (Nat.le_refl v)

theorem encodeBytes_injOn : ∀ {l₁ l₂ : Bytes}, (∀ b ∈ l₁, b < 256) →
    (∀ b ∈ l₂, b < 256) → encodeBytes l₁ = encodeBytes l₂ → l₁ = l₂ := by
  intro l₁
  induction l₁ with
  | nil =>
    intro l₂ _ h₂ heq
    cases l₂ with
    | nil => rfl
    | cons b rest => simp only [encodeBytes] at heq; omega
  | cons a rest ih =>
    intro l₂ h₁ h₂ heq
    cases l₂ with
    | nil => simp only [encodeBytes] at heq; omega
    | cons b rest₂ =>
      have ha : a < 256 := h₁ a (by simp)
      have hb : b < 256 := h₂ b (by simp)
      simp only [encodeBytes] at heq
      have hab : a = b ∧ encodeBytes rest = encodeBytes rest₂ := by omega
      have htl : rest = rest₂ :=
        ih (fun x hx => h₁ x (by simp [hx])) (fun x hx => h₂ x (by simp [hx])) hab.2
      rw [hab.1, htl]

/-- Modelled from the spec: opaque base64 strings returned by
`tweetnacl-util`'s `encodeBase64`.  Base64 is an injective encoding whose
decoder is a left inverse, so the opaque string is modelled as a wrapper
around the byte list itself. -/
structure B64 where
  data : Bytes
deriving DecidableEq

/-- Modelled from the spec: `encodeBase64` from `tweetnacl-util`. -/
def encodeBase64 (b : Bytes) : B64 := ⟨b⟩

/-- Modelled from the spec: `decodeBase64` from `tweetnacl-util`. -/
def decodeBase64 (s : B64) : Bytes := s.data

/-- Modelled from the spec: `decodeUTF8` from `tweetnacl-util`, an injective
encoding of strings into byte lists (code points stand in for UTF-8 bytes). -/
def decodeUTF8 (s : String) : Bytes := s.data.map Char.toNat

/-- Modelled from the spec: `encodeUTF8` from `tweetnacl-util`, left inverse
of `decodeUTF8`. -/
def encodeUTF8 (b : Bytes) : String := ⟨b.map Char.ofNat⟩

theorem encodeUTF8_decodeUTF8 (s : String) : encodeUTF8 (decodeUTF8 s) = s := by
  cases s with
  | mk data =>
    simp [encodeUTF8, decodeUTF8, List.map_map, Function.comp_def]

/-- Authentication tag of the modelled symmetric authenticated cipher:
binds key, nonce and message injectively. -/
def sbTag (k n m : Bytes) : Nat :=
  Nat.pair (encodeBytes k) (Nat.pair (encodeBytes n) (encodeBytes m))

/-- Modelled from the spec: `nacl.secretbox` (XSalsa20-Poly1305).
Authenticated ciphertext is modelled as an authentication tag binding
(key, nonce, message) followed by the message bytes; the cipher stream
itself carries no information the proofs rely on. -/
def secretbox (m n k : Bytes) : Bytes := sbTag k n m :: m

/-- Modelled from the spec: `nacl.secretbox.open`: verifies the tag and
fails closed (`none`) on any mismatch. -/
def secretboxOpen (c n k : Bytes) : Option Bytes :=
  match c with
  | [] => none
  | t :: rest => if t = sbTag k n rest then some rest else none

/-- Prime modulus of the modelled X25519 group. -/
def p25519 : Nat := 2 ^ 255 - 19

/-- Modelled from the spec: X25519 public key derivation (scalar
multiplication of the base point), modelled as multiplication modulo
`p25519` so that key agreement is commutative exactly as Diffie-Hellman is. -/
def curvePub (sk : Bytes) : Bytes := decodeNat (9 * encodeBytes sk % p25519)

/-- Modelled from the spec: the Diffie-Hellman shared secret derived from a
public key and a secret key. -/
def curveShared (pk sk : Bytes) : Nat := encodeBytes pk * encodeBytes sk % p25519

theorem curveShared_comm (a b : Bytes) :
    curveShared (curvePub b) a = curveShared (curvePub a) b := by
  simp only [curveShared, curvePub, encodeBytes_decodeNat, Nat.mod_mul_mod]
  ring_nf

/-- Modelled from the spec: `nacl.box`, authenticated public-key encryption:
the tag binds the Diffie-Hellman shared secret, the nonce and the message. -/
def box (m n pk sk : Bytes) : Bytes :=
  Nat.pair (curveShared pk sk) (Nat.pair (encodeBytes n) (encodeBytes m)) :: m

/-- Modelled from the spec: `nacl.box.open`, failing closed on tag mismatch. -/
def boxOpen (c n pk sk : Bytes) : Option Bytes :=
  match c with
  | [] => none
  | t :: rest =>
    if t = Nat.pair (curveShared pk sk) (Nat.pair (encodeBytes n) (encodeBytes rest))
    then some rest else none

/-- Errors thrown by `src/lib/crypto.ts`. -/
inductive CryptoError where
  | decryptEnvFailed
  | decryptProjectKeyFailed
deriving DecidableEq

/-- `generateKeypair` from `src/lib/crypto.ts` (`nacl.box.keyPair()`), with
the random secret scalar passed explicitly. -/
def generateKeypair (seed : Bytes) : Bytes × Bytes := (curvePub seed, seed)

/-- `encryptEnv` from `src/lib/crypto.ts`, with the random 24-byte nonce
passed explicitly. -/
def encryptEnv (plaintext : String) (projectKey : Bytes) (nonce : Bytes) : B64 :=
  let messageBytes := decodeUTF8 plaintext
  let ciphertext := secretbox messageBytes nonce projectKey
  encodeBase64 (nonce ++ ciphertext)

/-- `decryptEnv` from `src/lib/crypto.ts`; the thrown `Error` is modelled as
`Except.error`. -/
def decryptEnv (encrypted : B64) (projectKey : Bytes) : Except CryptoError String :=
  let combined := decodeBase64 encrypted
  let nonce := combined.take 24
  let ciphertext := combined.drop 24
  match secretboxOpen ciphertext nonce projectKey with
  | none => .error .decryptEnvFailed
  | some plaintext => .ok (encodeUTF8 plaintext)

/-- `encryptProjectKey` from `src/lib/crypto.ts`, with the nonce explicit. -/
def encryptProjectKey (projectKey recipientPublicKey senderSecretKey : Bytes)
    (nonce : Bytes) : B64 :=
  let ciphertext := box projectKey nonce recipientPublicKey senderSecretKey
  encodeBase64 (nonce ++ ciphertext)

/-- `decryptProjectKey` from `src/lib/crypto.ts`. -/
def decryptProjectKey (encrypted : B64) (senderPublicKey recipientSecretKey : Bytes) :
    Except CryptoError Bytes :=
  let combined := decodeBase64 encrypted
  let nonce := combined.take 24
  let ciphertext := combined.drop 24
  match boxOpen ciphertext nonce senderPublicKey recipientSecretKey with
  | none => .error .decryptProjectKeyFailed
  | some plaintext => .ok plaintext

/-- Concrete 32-byte project key used by witnesses. -/
def pkW : Bytes := List.replicate 32 7

/-- Concrete 24-byte nonce used by witnesses. -/
def nonceW : Bytes := List.replicate 24 3

/-- Second concrete 24-byte nonce used by witnesses. -/
def nonceW2 : Bytes := List.replicate 24 4

/-- Symmetric round-trip for any key, given a 24-byte nonce (helper shared by
several claims). -/
theorem decryptEnv_encryptEnv_of_nonce (p : String) (k n : Bytes)
    (hn : n.length = 24) : decryptEnv (encryptEnv p k n) k = .ok p := by
  unfold encryptEnv decryptEnv
  simp only [encodeBase64, decodeBase64]
  rw [List.take_left' hn, List.drop_left' hn]
  simp [secretbox, secretboxOpen, encodeUTF8_decodeUTF8]

/-- C1: for every plaintext `p` and 32-byte symmetric project key `k`
(and fresh 24-byte nonce), `decryptEnv (encryptEnv p k) k = p`. -/
theorem c1_symmetric_round_trip (p : String) (k n : Bytes)
    (hk : k.length = 32) (hn : n.length = 24) :
    decryptEnv (encryptEnv p k n) k = .ok p :=
  decryptEnv_encryptEnv_of_nonce p k n hn

/-- Witness for C1 at a concrete plaintext, key and nonce. -/
theorem c1_symmetric_round_trip_witness :
    (pkW.length = 32 ∧ nonceW.length = 24) ∧
    decryptEnv (encryptEnv ("API_KEY=abc123") pkW nonceW) pkW = .ok ("API_KEY=abc123") :=
  ⟨⟨by decide, by decide⟩,
   c1_symmetric_round_trip ("API_KEY=abc123") pkW nonceW (by decide) (by decide)⟩

/-- C2: unwrapping a wrapped 32-byte project key with the counterpart
identity keys recovers it exactly. -/
theorem c2_key_wrap_round_trip (pk skA skB n : Bytes)
    (hpk : pk.length = 32) (hn : n.length = 24) :
    decryptProjectKey
      (encryptProjectKey pk (generateKeypair skB).1 (generateKeypair skA).2 n)
      (generateKeypair skA).1 (generateKeypair skB).2 = .ok pk := by
  unfold encryptProjectKey decryptProjectKey generateKeypair
  simp only [encodeBase64, decodeBase64]
  rw [List.take_left' hn, List.drop_left' hn]
  simp only [box, boxOpen]
  rw [curveShared_comm skB skA]
  simp

/-- Witness for C2 at concrete identities, key and nonce. -/
theorem c2_key_wrap_round_trip_witness :
    (pkW.length = 32 ∧ nonceW.length = 24) ∧
    decryptProjectKey
      (encryptProjectKey pkW (generateKeypair [2]).1 (generateKeypair [1]).2 nonceW)
      (generateKeypair [1]).1 (generateKeypair [2]).2 = .ok pkW :=
  ⟨⟨by decide, by decide⟩,
   c2_key_wrap_round_trip pkW [1] [2] nonceW (by decide) (by decide)⟩

/-- C6 counterexample: unwrapping with the sender and recipient roles
swapped (the recipient's public key together with the sender's secret key,
exactly the encryption inputs) derives the same Diffie-Hellman shared
secret and therefore succeeds, returning the project key instead of
raising an authentication failure. -/
theorem c6_swapped_roles_counterexample :
    decryptProjectKey
      (encryptProjectKey pkW (generateKeypair [2]).1 (generateKeypair [1]).2 nonceW)
      (generateKeypair [2]).1 (generateKeypair [1]).2 = .ok pkW := rfl

/-- C6 (amended): decrypting with any key other than the encryption key
fails closed; unwrapping fails closed whenever the derived shared secret
differs from the one used to wrap; but unwrapping with swapped
sender/recipient roles derives the same shared secret and succeeds,
because Diffie-Hellman key agreement is symmetric. -/
theorem c6_authentication_failure :
    (∀ (p : String) (k₁ k₂ n : Bytes), n.length = 24 →
      (∀ b ∈ k₁, b < 256) → (∀ b ∈ k₂, b < 256) → k₁ ≠ k₂ →
      decryptEnv (encryptEnv p k₁ n) k₂ = .error .decryptEnvFailed)
  ∧ (∀ (pk skA skB pkX skY n : Bytes), n.length = 24 →
      curveShared pkX skY ≠ curveShared (curvePub skB) skA →
      decryptProjectKey (encryptProjectKey pk (curvePub skB) skA n) pkX skY =
        .error .decryptProjectKeyFailed)
  ∧ (∀ (pk skA skB n : Bytes), n.length = 24 →
      decryptProjectKey (encryptProjectKey pk (curvePub skB) skA n)
        (curvePub skB) skA = .ok pk) := by
  refine ⟨?_, ?_, ?_⟩
  · intro p k₁ k₂ n hn h₁ h₂ hne
    unfold encryptEnv decryptEnv
    simp only [encodeBase64, decodeBase64]
    rw [List.take_left' hn, List.drop_left' hn]
    simp only [secretbox, secretboxOpen]
    rw [if_neg]
    intro heq
    simp only [sbTag, Nat.pair_eq_pair] at heq
    exact hne (encodeBytes_injOn h₁ h₂ heq.1)
  · intro pk skA skB pkX skY n hn hshared
    unfold encryptProjectKey decryptProjectKey
    simp only [encodeBase64, decodeBase64]
    rw [List.take_left' hn, List.drop_left' hn]
    simp only [box, boxOpen]
    rw [if_neg]
    intro heq
    simp only [Nat.pair_eq_pair] at heq
    exact hshared heq.1.symm
  · intro pk skA skB n hn
    unfold encryptProjectKey decryptProjectKey
    simp only [encodeBase64, decodeBase64]
    rw [List.take_left' hn, List.drop_left' hn]
    simp [box, boxOpen]

/-- Witness for the amended C6 at concrete keys. -/
theorem c6_authentication_failure_witness :
    decryptEnv (encryptEnv ("X=1") [1] nonceW) [2] = .error .decryptEnvFailed
  ∧ decryptProjectKey (encryptProjectKey pkW (curvePub [2]) [1] nonceW) [] [] =
      .error .decryptProjectKeyFailed
  ∧ decryptProjectKey (encryptProjectKey pkW (curvePub [2]) [1] nonceW)
      (curvePub [2]) [1] = .ok pkW :=
  ⟨c6_authentication_failure.1 ("X=1") [1] [2] nonceW (by decide) (by decide)
     (by decide) (by decide),
   c6_authentication_failure.2.1 pkW [1] [2] [] [] nonceW (by decide) (by decide),
   c6_authentication_failure.2.2 pkW [1] [2] nonceW (by decide)⟩

/-- C8: `encryptEnv` returns the base64 encoding of the 24-byte nonce
followed by the authenticated ciphertext; two calls with distinct fresh
nonces give different opaque strings, and both decrypt to the original
plaintext under the same key. -/
theorem c8_nonce_freshness (p : String) (k n₁ n₂ : Bytes)
    (h₁ : n₁.length = 24) (h₂ : n₂.length = 24) (hne : n₁ ≠ n₂) :
    decodeBase64 (encryptEnv p k n₁) = n₁ ++ secretbox (decodeUTF8 p) n₁ k
  ∧ encryptEnv p k n₁ ≠ encryptEnv p k n₂
  ∧ decryptEnv (encryptEnv p k n₁) k = .ok p
  ∧ decryptEnv (encryptEnv p k n₂) k = .ok p := by
  refine ⟨rfl, ?_, decryptEnv_encryptEnv_of_nonce p k n₁ h₁,
    decryptEnv_encryptEnv_of_nonce p k n₂ h₂⟩
  intro heq
  have hdata : n₁ ++ secretbox (decodeUTF8 p) n₁ k
      = n₂ ++ secretbox (decodeUTF8 p) n₂ k := congrArg B64.data heq
  have htake := congrArg (List.take 24) hdata
  rw [List.take_left' h₁, List.take_left' h₂] at htake
  exact hne htake

/-- Witness for C8 at concrete plaintext, key and two distinct nonces. -/
theorem c8_nonce_freshness_witness :
    (nonceW.length = 24 ∧ nonceW2.length = 24 ∧ nonceW ≠ nonceW2) ∧
    (encryptEnv ("A=1") pkW nonceW ≠ encryptEnv ("A=1") pkW nonceW2
     ∧ decryptEnv (encryptEnv ("A=1") pkW nonceW) pkW = .ok ("A=1")) :=
  ⟨⟨by decide, by decide, by decide⟩,
   (c8_nonce_freshness ("A=1") pkW nonceW nonceW2 (by decide) (by decide)
      (by decide)).2.1,
   (c8_nonce_freshness ("A=1") pkW nonceW nonceW2 (by decide) (by decide)
      (by decide)).2.2.1⟩

/-- Modelled from the spec: JavaScript `String.prototype.split` with a
single-character separator, written at the character level. -/
def splitCharAux (c : Char) : List Char → List Char → List (List Char)
  | [], acc => [acc.reverse]
  | x :: xs, acc =>
    if x = c then acc.reverse :: splitCharAux c xs []
    else splitCharAux c xs (x :: acc)

/-- JavaScript `content.split(c)` for a one-character separator. -/
def jsSplitChar (c : Char) (s : String) : List String :=
  (splitCharAux c s.data []).map (fun l => ⟨l⟩)

/-- Modelled from the spec: JavaScript `String.prototype.trim` on a
character list. -/
def jsTrimChars (l : List Char) : List Char :=
  ((l.dropWhile Char.isWhitespace).reverse.dropWhile Char.isWhitespace).reverse

/-- JavaScript `s.trim()`. -/
def jsTrim (s : String) : String := ⟨jsTrimChars s.data⟩

/-- Modelled from the spec: JavaScript `String.prototype.toLowerCase`
(every caller only compares the ASCII answers `y` and `yes`). -/
def jsToLower (s : String) : String := ⟨s.data.map Char.toLower⟩

/-- The `prompt` helper of `push.ts`, `rollback.ts` and `start.ts` resolves
`answer.trim().toLowerCase()`. -/
def promptAnswerOf (raw : String) : String := jsToLower (jsTrim raw)

/-- Split a character list at the first `=` (JavaScript
`indexOf("=")` / `slice`); `none` when there is no `=`. -/
def splitFirstEq : List Char → Option (List Char × List Char)
  | [] => none
  | x :: rest =>
    if x = '=' then some ([], rest)
    else (splitFirstEq rest).map (fun q => (x :: q.1, q.2))

/-- JavaScript `Map.prototype.set` semantics on an insertion-ordered
association list: replace in place when the key exists, append otherwise. -/
def envSet (m : List (String × String)) (k v : String) : List (String × String) :=
  if m.any (fun q => q.1 = k) then
    m.map (fun q => if q.1 = k then (k, v) else q)
  else m ++ [(k, v)]

/-- `parseEnvContent` from `src/commands/diff.ts`: split on newlines, skip
blank and `#`-comment lines and lines without `=`, split each on the first
`=`, trim key and value, last duplicate wins. -/
def parseEnvContent (content : String) : List (String × String) :=
  (jsSplitChar '\n' content).foldl (fun m line =>
    let trimmed := jsTrim line
    if trimmed.data = [] || trimmed.data.head? = some '#' then m
    else
      match splitFirstEq trimmed.data with
      | none => m
      | some q => envSet m (jsTrim ⟨q.1⟩) (jsTrim ⟨q.2⟩)) []

/-- `Map.prototype.get` on the association-list model. -/
def lookupEnv (m : List (String × String)) (k : String) : Option String :=
  (m.find? (fun q => q.1 = k)).map (fun q => q.2)

/-- The `added` list of `registerDiffCommand` in `src/commands/diff.ts`:
keys present in remote but not local, rendered as `key=value`. -/
def diffAdded (localVars remoteVars : List (String × String)) : List String :=
  (remoteVars.filter (fun q => !(localVars.any (fun r => r.1 = q.1)))).map
    (fun q => q.1 ++ ("=") ++ q.2)

/-- The `changed` list of `registerDiffCommand`: keys present in both with
different values, with both values reported. -/
def diffChanged (localVars remoteVars : List (String × String)) :
    List (String × String × String) :=
  (remoteVars.filter (fun q =>
      localVars.any (fun r => r.1 = q.1)
        && !(decide (lookupEnv localVars q.1 = some q.2)))).map
    (fun q => (q.1, (lookupEnv localVars q.1).getD (""), q.2))

/-- The `removed` list of `registerDiffCommand`: keys present in local but
not remote. -/
def diffRemoved (localVars remoteVars : List (String × String)) : List String :=
  (localVars.filter (fun q => !(remoteVars.any (fun r => r.1 = q.1)))).map
    (fun q => q.1 ++ ("=") ++ q.2)

theorem find?_map_envSet (k v : String) : ∀ m : List (String × String),
    m.any (fun q => q.1 = k) = true →
    (m.map (fun q => if q.1 = k then (k, v) else q)).find?
      (fun q => q.1 = k) = some (k, v) := by
  intro m
  induction m with
  | nil => intro h; simp at h
  | cons q rest ih =>
    intro h
    by_cases hq : q.1 = k
    · simp [hq]
    · have hrest : rest.any (fun q => q.1 = k) = true := by
        simp only [List.any_cons, hq] at h
        simpa using h
      rw [List.map_cons, if_neg hq, List.find?_cons_of_neg _ (by simpa using hq)]
      exact ih hrest

theorem lookupEnv_envSet_self (m : List (String × String)) (k v : String) :
    lookupEnv (envSet m k v) k = some v := by
  unfold envSet lookupEnv
  by_cases h : m.any (fun q => q.1 = k)
  · rw [if_pos h, find?_map_envSet k v m h]
    rfl
  · rw [if_neg h, List.find?_append]
    have hnone : m.find? (fun q => q.1 = k) = none := by
      rw [List.find?_eq_none]
      intro x hx hx1
      exact h (List.any_eq_true.mpr ⟨x, hx, hx1⟩)
    rw [hnone]
    simp

theorem find?_map_envSet_other (k v k₂ : String) (hne : k₂ ≠ k) :
    ∀ m : List (String × String),
    (m.map (fun q => if q.1 = k then (k, v) else q)).find? (fun q => q.1 = k₂)
      = m.find? (fun q => q.1 = k₂) := by
  intro m
  induction m with
  | nil => rfl
  | cons q rest ih =>
    by_cases hq : q.1 = k
    · have hqk : ¬ q.1 = k₂ := by rw [hq]; exact fun hk => hne hk.symm
      have hkk : ¬ (k = k₂) := fun hk => hne hk.symm
      rw [List.map_cons, if_pos hq, List.find?_cons_of_neg _ (by simpa using hkk),
        List.find?_cons_of_neg _ (by simpa using hqk)]
      exact ih
    · rw [List.map_cons, if_neg hq]
      by_cases hq₂ : q.1 = k₂
      · rw [List.find?_cons_of_pos _ (by simpa using hq₂),
          List.find?_cons_of_pos _ (by simpa using hq₂)]
      · rw [List.find?_cons_of_neg _ (by simpa using hq₂),
          List.find?_cons_of_neg _ (by simpa using hq₂)]
        exact ih

theorem lookupEnv_envSet_other (m : List (String × String)) (k v k₂ : String)
    (hne : k₂ ≠ k) : lookupEnv (envSet m k v) k₂ = lookupEnv m k₂ := by
  unfold envSet lookupEnv
  by_cases h : m.any (fun q => q.1 = k)
  · rw [if_pos h, find?_map_envSet_other k v k₂ hne m]
  · rw [if_neg h, List.find?_append]
    have hkk : ¬ ((k, v).1 = k₂) := fun hk => hne hk.symm
    have : List.find? (fun q => q.1 = k₂) [(k, v)] = none := by
      rw [List.find?_cons_of_neg _ (by simpa using hkk)]
      rfl
    rw [this]
    cases m.find? (fun q => q.1 = k₂) <;> rfl

theorem mem_diffAdded (lm rm : List (String × String)) (k v : String)
    (hm : (k, v) ∈ rm) (hl : lookupEnv lm k = none) :
    (k ++ ("=") ++ v) ∈ diffAdded lm rm := by
  unfold diffAdded
  have hany : lm.any (fun r => r.1 = k) = false := by
    unfold lookupEnv at hl
    rw [Option.map_eq_none'] at hl
    rw [List.find?_eq_none] at hl
    simp only [List.any_eq_false]
    intro x hx
    simpa using hl x hx
  refine List.mem_map.mpr ⟨(k, v), List.mem_filter.mpr ⟨hm, ?_⟩, rfl⟩
  simp [hany]

theorem mem_diffRemoved (lm rm : List (String × String)) (k v : String)
    (hm : (k, v) ∈ lm) (hr : lookupEnv rm k = none) :
    (k ++ ("=") ++ v) ∈ diffRemoved lm rm := by
  unfold diffRemoved
  have hany : rm.any (fun r => r.1 = k) = false := by
    unfold lookupEnv at hr
    rw [Option.map_eq_none'] at hr
    rw [List.find?_eq_none] at hr
    simp only [List.any_eq_false]
    intro x hx
    simpa using hr x hx
  refine List.mem_map.mpr ⟨(k, v), List.mem_filter.mpr ⟨hm, ?_⟩, rfl⟩
  simp [hany]

/-- C5: parsing splits non-blank non-comment lines on the first `=` with
trimmed keys and last-wins duplicates (in document order), and the diff of
two parsed documents reports added = remote-only keys, removed =
local-only keys, changed = common keys with different values; on local
`A=1,B=2` versus remote `B=3,C=4` it reports added `C=4`, removed `A=1`,
changed `B: 2 vs 3`. -/
theorem c5_parse_and_diff :
    parseEnvContent ("# comment\n\n A = 1\nB=2=3\nA=4")
      = [(("A"), ("4")), (("B"), ("2=3"))]
  ∧ (∀ m k v, lookupEnv (envSet m k v) k = some v)
  ∧ (∀ m k v k₂, k₂ ≠ k → lookupEnv (envSet m k v) k₂ = lookupEnv m k₂)
  ∧ (∀ lm rm k v, (k, v) ∈ rm → lookupEnv lm k = none →
      (k ++ ("=") ++ v) ∈ diffAdded lm rm)
  ∧ (∀ lm rm k v, (k, v) ∈ lm → lookupEnv rm k = none →
      (k ++ ("=") ++ v) ∈ diffRemoved lm rm)
  ∧ diffAdded (parseEnvContent ("A=1\nB=2")) (parseEnvContent ("B=3\nC=4"))
      = [("C=4")]
  ∧ diffRemoved (parseEnvContent ("A=1\nB=2")) (parseEnvContent ("B=3\nC=4"))
      = [("A=1")]
  ∧ diffChanged (parseEnvContent ("A=1\nB=2")) (parseEnvContent ("B=3\nC=4"))
      = [(("B"), ("2"), ("3"))] :=
  ⟨by decide, lookupEnv_envSet_self, lookupEnv_envSet_other, mem_diffAdded,
   mem_diffRemoved, by decide, by decide, by decide⟩

/-- Witness for C5 at concrete maps. -/
theorem c5_parse_and_diff_witness :
    lookupEnv (envSet [(("A"), ("1"))] ("A") ("2")) ("A") = some ("2")
  ∧ (("C") ++ ("=") ++ ("4")) ∈ diffAdded [(("A"), ("1"))] [(("C"), ("4"))] :=
  ⟨c5_parse_and_diff.2.1 [(("A"), ("1"))] ("A") ("2"),
   c5_parse_and_diff.2.2.2.1 [(("A"), ("1"))] [(("C"), ("4"))] ("C") ("4")
     (by decide) (by decide)⟩

/-- Failures thrown by `apiClient` in `src/lib/api.ts` (network or HTTP
errors), identified by a code. -/
inductive ApiError where
  | fail (code : Nat)
deriving DecidableEq

/-- `ProjectConfig` from `src/commands/push.ts` (`.gitignored.json`). -/
structure ProjectConfig where
  projectId : String
  projectSlug : String
  lastPushedVersion : Option Nat := none
deriving DecidableEq

/-- One `POST /api/projects/id/env` request body: encrypted payload and
optional message. -/
structure UploadReq where
  payload : B64
  message : Option String
deriving DecidableEq

/-- A `PendingMember` from `syncPendingKeys` together with the outcome of
its `POST .../members/userId/key` upload; a failing base64 decode of the
member public key is also represented by an error outcome. -/
structure PendingShare where
  userId : String
  publicKey : B64
  uploadResult : Except ApiError Unit

/-- Whether one pending share succeeded (`shared++` executed). -/
def shareOk (m : PendingShare) : Bool :=
  match m.uploadResult with
  | .ok _ => true
  | .error _ => false

/-- Number of successfully shared envelopes (the `shared` counter). -/
def countShared (pending : List PendingShare) : Nat :=
  (pending.filter shareOk).length

/-- Environment of one `syncPendingKeys` call: the pending-keys fetch, the
identity keypair and project key loads. -/
structure SyncEnv where
  pendingFetch : Except ApiError (List PendingShare)
  keypair : Option (Bytes × Bytes)
  projectKey : Option Bytes

/-- `syncPendingKeys` from `src/commands/push.ts` and `src/commands/pull.ts`:
every failure is swallowed (outer and per-member try/catch), so the call
always returns normally with the count of successful shares. -/
def syncPendingKeys (e : SyncEnv) : Nat :=
  match e.pendingFetch with
  | .error _ => 0
  | .ok pending =>
    if pending.isEmpty then 0
    else
      match e.keypair, e.projectKey with
      | some _, some _ => countShared pending
      | _, _ => 0

/-- Environment of one `push` command invocation (`registerPushCommand` in
`src/commands/push.ts`): results of the reads, prompts and API calls it
performs, in source order. -/
structure PushEnv where
  config : Option ProjectConfig
  envContent : Option String
  projectKey : Option Bytes
  force : Bool
  message : Option String
  versionFetch : Except ApiError Nat
  promptAnswer : String
  nonce : Bytes
  pushResult : Except ApiError Nat
  sync : SyncEnv

/-- Observable outcome of one `push` invocation. -/
structure PushOutcome where
  versionFetched : Bool
  warned : Bool
  prompted : Bool
  uploaded : Option UploadReq
  savedConfig : Option ProjectConfig
  cancelled : Bool
  exitError : Bool
  sharedCount : Nat
deriving DecidableEq

/-- Outcome of the early-error paths of `push` (missing config, missing
`.env.shared`, missing project key). -/
def pushErrorOutcome : PushOutcome :=
  ⟨false, false, false, none, none, false, true, 0⟩

/-- The conflict condition of `push`: not forced, version fetch succeeded,
server version strictly greater than the locally recorded version, and
that local version is positive. -/
def conflictFlag (config : ProjectConfig) (force : Bool)
    (versionFetch : Except ApiError Nat) : Bool :=
  if force then false
  else
    match versionFetch with
    | .error _ => false
    | .ok v =>
      config.lastPushedVersion.getD 0 < v && 0 < config.lastPushedVersion.getD 0

/-- The `push` command action from `src/commands/push.ts`, as a function of
its environment. -/
def pushCommand (e : PushEnv) : PushOutcome :=
  match e.config with
  | none => pushErrorOutcome
  | some config =>
    match e.envContent with
    | none => pushErrorOutcome
    | some envContent =>
      match e.projectKey with
      | none => pushErrorOutcome
      | some projectKey =>
        let conflict := conflictFlag config e.force e.versionFetch
        let ans := promptAnswerOf e.promptAnswer
        let declined := conflict && !(ans = ("y") || ans = ("yes"))
        if declined then
          { versionFetched := !e.force, warned := conflict, prompted := conflict,
            uploaded := none, savedConfig := none, cancelled := true,
            exitError := false, sharedCount := 0 }
        else
          let encryptedPayload := encryptEnv envContent projectKey e.nonce
          match e.pushResult with
          | .error _ =>
            { versionFetched := !e.force, warned := conflict, prompted := conflict,
              uploaded := some ⟨encryptedPayload, e.message⟩, savedConfig := none,
              cancelled := false, exitError := true, sharedCount := 0 }
          | .ok v =>
            { versionFetched := !e.force, warned := conflict, prompted := conflict,
              uploaded := some ⟨encryptedPayload, e.message⟩,
              savedConfig := some { config with lastPushedVersion := some v },
              cancelled := false, exitError := false,
              sharedCount := syncPendingKeys e.sync }

/-- The decline condition of the conflict prompt, in propositional form. -/
def declinedProp (config : ProjectConfig) (e : PushEnv) : Prop :=
  conflictFlag config e.force e.versionFetch = true
    ∧ ¬ promptAnswerOf e.promptAnswer = ("y")
    ∧ ¬ promptAnswerOf e.promptAnswer = ("yes")

theorem pushCommand_prompted_eq (e : PushEnv) (config : ProjectConfig)
    (s : String) (k : Bytes) (hc : e.config = some config)
    (he : e.envContent = some s) (hk : e.projectKey = some k) :
    (pushCommand e).prompted = conflictFlag config e.force e.versionFetch
  ∧ (pushCommand e).warned = conflictFlag config e.force e.versionFetch
  ∧ (pushCommand e).versionFetched = !e.force := by
  simp only [pushCommand, hc, he, hk]
  by_cases hd : declinedProp config e
  · unfold declinedProp at hd
    simp [hd]
  · unfold declinedProp at hd
    cases hr : e.pushResult <;> simp [hd, hr]

theorem pushCommand_uploads (e : PushEnv) (config : ProjectConfig)
    (s : String) (k : Bytes) (hc : e.config = some config)
    (he : e.envContent = some s) (hk : e.projectKey = some k)
    (hnd : ¬ declinedProp config e) :
    (pushCommand e).uploaded = some ⟨encryptEnv s k e.nonce, e.message⟩ := by
  unfold declinedProp at hnd
  simp only [pushCommand, hc, he, hk]
  cases hr : e.pushResult <;> simp [hnd, hr]

theorem pushCommand_decline (e : PushEnv) (config : ProjectConfig)
    (s : String) (k : Bytes) (hc : e.config = some config)
    (he : e.envContent = some s) (hk : e.projectKey = some k)
    (hd : declinedProp config e) :
    pushCommand e =
      ⟨!e.force, conflictFlag config e.force e.versionFetch, conflictFlag config e.force e.versionFetch, none, none,
       true, false, 0⟩ := by
  unfold declinedProp at hd
  simp only [pushCommand, hc, he, hk]
  simp [hd]

/-- C3: without `force`, push prompts exactly when the version fetch
succeeds with a version strictly above the recorded `lastPushedVersion`
and that recorded version is positive; a failed fetch lets the push
proceed; declining the prompt aborts with nothing uploaded and no config
saved; with `force` no version check happens and the push proceeds. -/
theorem c3_conflict_gate (e : PushEnv) (config : ProjectConfig)
    (s : String) (k : Bytes) (hc : e.config = some config)
    (he : e.envContent = some s) (hk : e.projectKey = some k) :
    (∀ v, e.force = false → e.versionFetch = .ok v →
      ((pushCommand e).prompted = true ↔
        config.lastPushedVersion.getD 0 < v ∧ 0 < config.lastPushedVersion.getD 0))
  ∧ (∀ err, e.force = false → e.versionFetch = .error err →
      (pushCommand e).prompted = false
        ∧ (pushCommand e).uploaded = some ⟨encryptEnv s k e.nonce, e.message⟩)
  ∧ ((pushCommand e).prompted = true →
      ¬ promptAnswerOf e.promptAnswer = ("y") →
      ¬ promptAnswerOf e.promptAnswer = ("yes") →
      (pushCommand e).uploaded = none ∧ (pushCommand e).savedConfig = none
        ∧ (pushCommand e).cancelled = true ∧ (pushCommand e).exitError = false)
  ∧ (e.force = true →
      (pushCommand e).versionFetched = false ∧ (pushCommand e).prompted = false
        ∧ (pushCommand e).uploaded = some ⟨encryptEnv s k e.nonce, e.message⟩) := by
  obtain ⟨hp, hw, hv⟩ := pushCommand_prompted_eq e config s k hc he hk
  refine ⟨?_, ?_, ?_, ?_⟩
  · intro v hf hok
    rw [hp]
    simp [conflictFlag, hf, hok]
  · intro err hf herr
    have hcf : conflictFlag config e.force e.versionFetch = false := by simp [conflictFlag, hf, herr]
    constructor
    · rw [hp, hcf]
    · exact pushCommand_uploads e config s k hc he hk
        (fun hnd => by rw [hnd.1] at hcf; cases hcf)
  · intro hprompt hy hyes
    have hcf : conflictFlag config e.force e.versionFetch = true := by rw [hp] at hprompt; exact hprompt
    rw [pushCommand_decline e config s k hc he hk ⟨hcf, hy, hyes⟩]
    exact ⟨rfl, rfl, rfl, rfl⟩
  · intro hf
    have hcf : conflictFlag config e.force e.versionFetch = false := by simp [conflictFlag, hf]
    refine ⟨?_, ?_, ?_⟩
    · rw [hv, hf]
      rfl
    · rw [hp, hcf]
    · exact pushCommand_uploads e config s k hc he hk
        (fun hnd => by rw [hnd.1] at hcf; cases hcf)

/-- Concrete push environment for the C3 witness: recorded version 1,
relay at version 3, no force, user answers `n`. -/
def pushEnvW : PushEnv :=
  { config := some ⟨("p1"), ("proj"), some 1⟩,
    envContent := some ("A=1"),
    projectKey := some pkW,
    force := false,
    message := none,
    versionFetch := .ok 3,
    promptAnswer := ("n"),
    nonce := nonceW,
    pushResult := .ok 4,
    sync := ⟨.ok [], none, none⟩ }

/-- Witness for C3: at the concrete environment the prompt is surfaced and
the declined push uploads nothing. -/
theorem c3_conflict_gate_witness :
    (pushCommand pushEnvW).prompted = true
  ∧ (pushCommand pushEnvW).uploaded = none
  ∧ (pushCommand pushEnvW).cancelled = true := by
  have h := c3_conflict_gate pushEnvW ⟨("p1"), ("proj"), some 1⟩ ("A=1") pkW
    rfl rfl rfl
  have hprompt : (pushCommand pushEnvW).prompted = true :=
    (h.1 3 rfl rfl).mpr (by decide)
  have hrest := h.2.2.1 hprompt (by decide) (by decide)
  exact ⟨hprompt, hrest.1, hrest.2.2.1⟩

/-- Erase the pending-key share count from a push outcome. -/
def stripCount (o : PushOutcome) : PushOutcome := { o with sharedCount := 0 }

theorem pushCommand_stripCount (e : PushEnv) (s : SyncEnv) :
    stripCount (pushCommand { e with sync := s })
      = stripCount (pushCommand e) := by
  obtain ⟨c, ec, pk, f, msg, vf, pa, nn, pr, sy⟩ := e
  cases c <;> cases ec <;> cases pk <;> simp only [pushCommand] <;> try rfl
  split <;> cases pr <;> rfl

/-- C7: pending-key distribution is per-member independent (a failing
member changes nothing but its own absence), always returns only a count
of successes, and the enclosing push outcome does not depend on the
pending-key environment in any field other than the reported count. -/
theorem c7_sync_best_effort :
    (∀ (pre post : List PendingShare) (m : PendingShare)
       (kp : Option (Bytes × Bytes)) (key : Option Bytes) (err : ApiError),
       m.uploadResult = .error err →
       syncPendingKeys ⟨.ok (pre ++ m :: post), kp, key⟩
         = syncPendingKeys ⟨.ok (pre ++ post), kp, key⟩)
  ∧ (∀ (pending : List PendingShare) (kpv : Bytes × Bytes) (key : Bytes),
       syncPendingKeys ⟨.ok pending, some kpv, some key⟩ = countShared pending)
  ∧ (∀ (e : PushEnv) (s₁ s₂ : SyncEnv),
       (pushCommand { e with sync := s₁ }).uploaded
           = (pushCommand { e with sync := s₂ }).uploaded
       ∧ (pushCommand { e with sync := s₁ }).savedConfig
           = (pushCommand { e with sync := s₂ }).savedConfig
       ∧ (pushCommand { e with sync := s₁ }).exitError
           = (pushCommand { e with sync := s₂ }).exitError
       ∧ (pushCommand { e with sync := s₁ }).cancelled
           = (pushCommand { e with sync := s₂ }).cancelled
       ∧ (pushCommand { e with sync := s₁ }).prompted
           = (pushCommand { e with sync := s₂ }).prompted) := by
  refine ⟨?_, ?_, ?_⟩
  · intro pre post m kp key err hm
    unfold syncPendingKeys
    have hfil : countShared (pre ++ m :: post) = countShared (pre ++ post) := by
      unfold countShared
      simp [List.filter_append, List.filter_cons, shareOk, hm]
    cases kp with
    | none => cases key <;> simp
    | some kpv =>
      cases key with
      | none => simp
      | some kv =>
        by_cases hpp : (pre ++ post).isEmpty = true
        · have h2 : pre = [] ∧ post = [] := by
            rw [List.isEmpty_iff] at hpp
            exact List.append_eq_nil.mp hpp
          obtain ⟨h3, h4⟩ := h2
          subst h3; subst h4
          simp [countShared, shareOk, hm]
        · have h5 : ¬ ((pre ++ m :: post).isEmpty = true) := by
            simp [List.isEmpty_iff]
          simp [hpp, h5, hfil]
  · intro pending kpv key
    unfold syncPendingKeys
    by_cases hp : pending.isEmpty = true
    · have hnil : pending = [] := by rwa [List.isEmpty_iff] at hp
      simp [hnil, countShared]
    · simp [hp]
  · intro e s₁ s₂
    have h := (pushCommand_stripCount e s₁).trans (pushCommand_stripCount e s₂).symm
    have h1 := congrArg PushOutcome.uploaded h
    have h2 := congrArg PushOutcome.savedConfig h
    have h3 := congrArg PushOutcome.exitError h
    have h4 := congrArg PushOutcome.cancelled h
    have h5 := congrArg PushOutcome.prompted h
    exact ⟨h1, h2, h3, h4, h5⟩

/-- Witness for C7: one failing pending member contributes nothing and
does not abort the distribution. -/
theorem c7_sync_best_effort_witness :
    syncPendingKeys ⟨.ok [⟨("u1"), ⟨[]⟩, .error (.fail 500)⟩],
        some (pkW, pkW), some pkW⟩
      = syncPendingKeys ⟨.ok [], some (pkW, pkW), some pkW⟩ :=
  c7_sync_best_effort.1 [] [] ⟨("u1"), ⟨[]⟩, .error (.fail 500)⟩
    (some (pkW, pkW)) (some pkW) (.fail 500) rfl

/-- `SnapshotResponse` from `src/commands/rollback.ts`
(`GET /api/projects/id/env/version`). -/
structure SnapshotResponse where
  encryptedPayload : B64
  version : Nat
deriving DecidableEq

/-- Environment of one `rollback` invocation (`registerRollbackCommand` in
`src/commands/rollback.ts`): the parsed target version and the results of
the reads, prompts and API calls in source order. -/
structure RollbackEnv where
  version : Nat
  config : Option ProjectConfig
  projectKey : Option Bytes
  snapshotFetch : Except ApiError SnapshotResponse
  currentContent : Option String
  promptAnswer : String
  nonce : Bytes
  pushResult : Except ApiError Nat

/-- Observable outcome of one `rollback` invocation. -/
structure RollbackOutcome where
  uploaded : Option UploadReq
  wroteLocal : Option String
  cancelled : Bool
  exitError : Bool
deriving DecidableEq

/-- Outcome of the error paths of `rollback`. -/
def rollbackErrorOutcome : RollbackOutcome := ⟨none, none, false, true⟩

/-- The `rollback` command action from `src/commands/rollback.ts`. -/
def rollbackCommand (e : RollbackEnv) : RollbackOutcome :=
  if e.version < 1 then rollbackErrorOutcome
  else
    match e.config with
    | none => rollbackErrorOutcome
    | some _config =>
      match e.projectKey with
      | none => rollbackErrorOutcome
      | some projectKey =>
        match e.snapshotFetch with
        | .error _ => rollbackErrorOutcome
        | .ok oldSnapshot =>
          if oldSnapshot.encryptedPayload.data = [] then rollbackErrorOutcome
          else
            match decryptEnv oldSnapshot.encryptedPayload projectKey with
            | .error _ => rollbackErrorOutcome
            | .ok oldContent =>
              let ans := promptAnswerOf e.promptAnswer
              if ¬ (ans = ("y") ∨ ans = ("yes")) then ⟨none, none, true, false⟩
              else
                let encryptedPayload := encryptEnv oldContent projectKey e.nonce
                match e.pushResult with
                | .error _ =>
                  ⟨some ⟨encryptedPayload,
                     some (("Rollback to v") ++ toString e.version)⟩,
                   none, false, true⟩
                | .ok _ =>
                  ⟨some ⟨encryptedPayload,
                     some (("Rollback to v") ++ toString e.version)⟩,
                   some oldContent, false, false⟩

/-- Modelled from the spec: the relay's append-only snapshot store.
Version `v` (starting at 1) is the `v`-th element; a push appends and
returns the server-assigned version. -/
def relayPushSnapshot (snapshots : List B64) (payload : B64) : List B64 × Nat :=
  (snapshots ++ [payload], snapshots.length + 1)

/-- Modelled from the spec: fetching the snapshot stored at version `v`. -/
def relayFetchSnapshot (snapshots : List B64) (v : Nat) : Option B64 :=
  if v = 0 then none else snapshots.get? (v - 1)

/-- C4: a confirmed rollback uploads exactly what a push of the decrypted
old snapshot (with the rollback message) uploads, and on the append-only
relay the new head version decrypts to the target version's content while
the target version stays fetchable and unchanged. -/
theorem c4_rollback_is_push (eR : RollbackEnv) (config : ProjectConfig)
    (key : Bytes) (old : SnapshotResponse) (oldContent : String)
    (hv : 1 ≤ eR.version) (hc : eR.config = some config)
    (hk : eR.projectKey = some key) (hs : eR.snapshotFetch = .ok old)
    (hpay : old.encryptedPayload.data ≠ [])
    (hdec : decryptEnv old.encryptedPayload key = .ok oldContent)
    (hans : promptAnswerOf eR.promptAnswer = ("y")
      ∨ promptAnswerOf eR.promptAnswer = ("yes")) :
    (rollbackCommand eR).uploaded =
      (pushCommand
        { config := some config, envContent := some oldContent,
          projectKey := some key, force := true,
          message := some (("Rollback to v") ++ toString eR.version),
          versionFetch := .ok 0, promptAnswer := eR.promptAnswer,
          nonce := eR.nonce, pushResult := eR.pushResult,
          sync := ⟨.error (.fail 0), none, none⟩ }).uploaded
  ∧ (∀ (snapshots : List B64) (t : Nat) (c : B64) (content : String) (n : Bytes),
      n.length = 24 →
      relayFetchSnapshot snapshots t = some c →
      decryptEnv c key = .ok content →
      relayFetchSnapshot (relayPushSnapshot snapshots (encryptEnv content key n)).1
          (relayPushSnapshot snapshots (encryptEnv content key n)).2
        = some (encryptEnv content key n)
      ∧ decryptEnv (encryptEnv content key n) key = .ok content
      ∧ relayFetchSnapshot (relayPushSnapshot snapshots (encryptEnv content key n)).1 t
        = some c) := by
  constructor
  · have hnv : ¬ (eR.version < 1) := by omega
    have hnans : ¬ ¬ (promptAnswerOf eR.promptAnswer = ("y")
        ∨ promptAnswerOf eR.promptAnswer = ("yes")) := fun hn => hn hans
    simp only [rollbackCommand, pushCommand, hc, hk, hs, hnv, if_false,
      if_neg hnv, if_neg hpay, hdec, if_neg hnans]
    cases hr : eR.pushResult <;> simp [conflictFlag]
  · intro snapshots t c content n hn hfetch hdecc
    refine ⟨?_, decryptEnv_encryptEnv_of_nonce content key n hn, ?_⟩
    · unfold relayPushSnapshot relayFetchSnapshot
      simp [List.get?_concat_length]
    · unfold relayFetchSnapshot at hfetch ⊢
      unfold relayPushSnapshot
      by_cases ht : t = 0
      · rw [ht] at hfetch
        simp at hfetch
      · rw [if_neg ht] at hfetch ⊢
        have hlt : t - 1 < snapshots.length := by
          rcases List.get?_eq_some.mp hfetch with ⟨hlt, -⟩
          exact hlt
        rw [List.get?_append hlt]
        exact hfetch

/-- Concrete rollback environment for the C4 witness: target version 1,
confirmed with `y`. -/
def rollbackEnvW : RollbackEnv :=
  { version := 1,
    config := some ⟨("p1"), ("proj"), none⟩,
    projectKey := some pkW,
    snapshotFetch := .ok ⟨encryptEnv ("A=1") pkW nonceW, 1⟩,
    currentContent := none,
    promptAnswer := ("y"),
    nonce := nonceW2,
    pushResult := .ok 2 }

/-- The push environment whose upload the C4 witness compares against. -/
def pushEnvRbW : PushEnv :=
  { config := some ⟨("p1"), ("proj"), none⟩,
    envContent := some ("A=1"),
    projectKey := some pkW,
    force := true,
    message := some (("Rollback to v") ++ toString (1 : Nat)),
    versionFetch := .ok 0,
    promptAnswer := ("y"),
    nonce := nonceW2,
    pushResult := .ok 2,
    sync := ⟨.error (.fail 0), none, none⟩ }

/-- Witness for C4 at a concrete one-snapshot relay. -/
theorem c4_rollback_is_push_witness :
    (rollbackCommand rollbackEnvW).uploaded = (pushCommand pushEnvRbW).uploaded
  ∧ relayFetchSnapshot
      (relayPushSnapshot [encryptEnv ("A=1") pkW nonceW]
        (encryptEnv ("A=1") pkW nonceW2)).1 1
      = some (encryptEnv ("A=1") pkW nonceW) := by
  have h := c4_rollback_is_push rollbackEnvW ⟨("p1"), ("proj"), none⟩ pkW
    ⟨encryptEnv ("A=1") pkW nonceW, 1⟩ ("A=1") (by decide) rfl rfl rfl
    (by decide) (by rfl) (Or.inl (by decide))
  refine ⟨h.1, ?_⟩
  have h2 := h.2 [encryptEnv ("A=1") pkW nonceW] 1 (encryptEnv ("A=1") pkW nonceW)
    ("A=1") nonceW2 (by decide) (by rfl) (by rfl)
  exact h2.2.2

/-- `PullResponse` from `src/commands/pull.ts` (`GET /api/projects/id/env`);
a missing payload is the empty opaque string (JavaScript falsy check). -/
structure PullResponse where
  encryptedPayload : B64
  version : Nat
deriving DecidableEq

/-- `Project` from `src/commands/pull.ts` (`GET /api/projects`). -/
structure Project where
  id : String
  name : String
  slug : String
deriving DecidableEq

/-- Environment of one `pull` invocation (`registerPullCommand` in
`src/commands/pull.ts`): CLI options and the results of the reads and API
calls in source order.  `projectKeyFor` is the keystore lookup, indexed by
project id because the id is only resolved inside the command. -/
structure PullEnv where
  tokenOpt : Option String
  projectOpt : Option String
  listFetch : Except ApiError (List Project)
  config : Option ProjectConfig
  projectKeyFor : String → Option Bytes
  envFetch : Except ApiError PullResponse
  sync : SyncEnv

/-- Observable outcome of one `pull` invocation: the unique write to
`.env.shared` (if any), the error flag, and the pending-keys count. -/
structure PullOutcome where
  wroteLocal : Option String
  exitError : Bool
  sharedCount : Nat
deriving DecidableEq

/-- The tail of `pull` once the project id is resolved: key lookup, fetch,
falsy-payload check, decrypt, single write, pending-key sync. -/
def pullWithProject (e : PullEnv) (projectId : String) : PullOutcome :=
  match e.projectKeyFor projectId with
  | none => ⟨none, true, 0⟩
  | some projectKey =>
    match e.envFetch with
    | .error _ => ⟨none, true, 0⟩
    | .ok result =>
      if result.encryptedPayload.data = [] then ⟨none, true, 0⟩
      else
        match decryptEnv result.encryptedPayload projectKey with
        | .error _ => ⟨none, true, 0⟩
        | .ok decrypted => ⟨some decrypted, false, syncPendingKeys e.sync⟩

/-- The `pull` command action from `src/commands/pull.ts`, including the
CI/CD slug-resolution branch. -/
def pullCommand (e : PullEnv) : PullOutcome :=
  match e.projectOpt with
  | some slug =>
    match e.listFetch with
    | .error _ => ⟨none, true, 0⟩
    | .ok projects =>
      match projects.find? (fun p => p.slug = slug) with
      | none => ⟨none, true, 0⟩
      | some project => pullWithProject e project.id
  | none =>
    match e.config with
    | none => ⟨none, true, 0⟩
    | some config => pullWithProject e config.projectId

/-- The project id `pull` resolves (CI/CD slug lookup or local config). -/
def resolvedProjectId (e : PullEnv) : Option String :=
  match e.projectOpt with
  | some slug =>
    match e.listFetch with
    | .error _ => none
    | .ok projects => (projects.find? (fun p => p.slug = slug)).map (fun p => p.id)
  | none => e.config.map (fun c => c.projectId)

theorem pullWithProject_writes (e : PullEnv) (pid : String) (d : String) :
    (pullWithProject e pid).wroteLocal = some d ↔
      ∃ key r, e.projectKeyFor pid = some key ∧ e.envFetch = .ok r
        ∧ r.encryptedPayload.data ≠ []
        ∧ decryptEnv r.encryptedPayload key = .ok d := by
  unfold pullWithProject
  cases hk : e.projectKeyFor pid with
  | none => simp
  | some key =>
    cases hf : e.envFetch with
    | error err => simp
    | ok r =>
      by_cases hp : r.encryptedPayload.data = []
      · simp [hp]
      · cases hd : decryptEnv r.encryptedPayload key with
        | error err => simp [hp, hd]
        | ok dec =>
          simp only [hp, if_neg hp, hd]
          constructor
          · intro hsome
            refine ⟨key, r, rfl, rfl, hp, ?_⟩
            cases hsome
            exact hd
          · rintro ⟨key₂, r₂, hk₂, hr₂, -, hd₂⟩
            cases hk₂
            cases hr₂
            rw [hd] at hd₂
            cases hd₂
            rfl

/-- C10: `pull` writes `.env.shared` (exactly once, the outcome records at
most one write) with content `d` precisely when a project id was resolved,
its key was found, the fetch succeeded with a non-empty payload, and
decryption under that key returned `d`; on every failure path nothing is
written. -/
theorem c10_pull_writes (e : PullEnv) (d : String) :
    (pullCommand e).wroteLocal = some d ↔
      ∃ pid key r, resolvedProjectId e = some pid
        ∧ e.projectKeyFor pid = some key
        ∧ e.envFetch = .ok r
        ∧ r.encryptedPayload.data ≠ []
        ∧ decryptEnv r.encryptedPayload key = .ok d := by
  unfold pullCommand resolvedProjectId
  cases ho : e.projectOpt with
  | some slug =>
    cases hl : e.listFetch with
    | error err => simp
    | ok projects =>
      cases hfind : projects.find? (fun p => p.slug = slug) with
      | none => dsimp only; simp [hfind]
      | some project =>
        dsimp only
        rw [hfind]
        simp only [Option.map_some]
        rw [pullWithProject_writes e project.id d]
        constructor
        · rintro ⟨key, r, h1, h2, h3, h4⟩
          exact ⟨project.id, key, r, rfl, h1, h2, h3, h4⟩
        · rintro ⟨pid, key, r, hpid, h1, h2, h3, h4⟩
          cases hpid
          exact ⟨key, r, h1, h2, h3, h4⟩
  | none =>
    cases hcfg : e.config with
    | none => dsimp only; simp [hcfg]
    | some config =>
      simp only [Option.map_some']
      rw [pullWithProject_writes e config.projectId d]
      constructor
      · rintro ⟨key, r, h1, h2, h3, h4⟩
        exact ⟨config.projectId, key, r, rfl, h1, h2, h3, h4⟩
      · rintro ⟨pid, key, r, hpid, h1, h2, h3, h4⟩
        cases hpid
        exact ⟨key, r, h1, h2, h3, h4⟩

/-- In-memory state of one watch session (`registerStartCommand` in
`src/commands/start.ts`): the loop-local version and the two guard flags. -/
structure WatchState where
  localVersion : Nat
  isPushing : Bool
  isPrompting : Bool
deriving DecidableEq

/-- Inputs consumed by one timer poll tick: the cheap version check and the
full pull. -/
structure PollInput where
  versionFetch : Except ApiError Nat
  pullFetch : Except ApiError PullResponse

/-- Effects of one poll tick: whether any fetch was issued and the single
overwrite of the local mirror file (if any). -/
structure PollEffects where
  fetched : Bool
  wroteLocal : Option String
deriving DecidableEq

/-- One tick of the `setInterval` poll from `src/commands/start.ts`,
processed as one atomic step.  The guard is the first statement of the
callback: when `isPushing` or `isPrompting` is set the tick returns
immediately with no fetch and no write. -/
def pollTick (projectKey : Bytes) (s : WatchState) (inp : PollInput) :
    WatchState × PollEffects :=
  if s.isPushing || s.isPrompting then (s, ⟨false, none⟩)
  else
    match inp.versionFetch with
    | .error _ => (s, ⟨true, none⟩)
    | .ok v =>
      if s.localVersion < v then
        match inp.pullFetch with
        | .error _ => (s, ⟨true, none⟩)
        | .ok pullResult =>
          if pullResult.encryptedPayload.data = [] then (s, ⟨true, none⟩)
          else
            match decryptEnv pullResult.encryptedPayload projectKey with
            | .error _ => (s, ⟨true, none⟩)
            | .ok decrypted =>
              ({ s with localVersion := pullResult.version }, ⟨true, some decrypted⟩)
      else (s, ⟨true, none⟩)

/-- Inputs consumed by one local file-change event: the confirmation
answer, the file read, and the push POST result. -/
structure FileInput where
  answer : String
  readContent : Option String
  pushResult : Except ApiError Nat

/-- Effects of one file-change event: whether the prompt ran and the push
request that was sent (if any). -/
structure FileEffects where
  prompted : Bool
  pushed : Option UploadReq
deriving DecidableEq

/-- One local file-change event from the `fs.watch` callback in
`src/commands/start.ts`, processed as one atomic step (the `finally`
blocks restore both flags before the step ends).  The guard is the first
statement of the callback: when `isPushing` or `isPrompting` is set the
event is ignored. -/
def fileChangeEvent (projectKey : Bytes) (nonce : Bytes) (s : WatchState)
    (inp : FileInput) : WatchState × FileEffects :=
  if s.isPushing || s.isPrompting then (s, ⟨false, none⟩)
  else
    let ans := promptAnswerOf inp.answer
    if ans = ("y") ∨ ans = ("yes") then
      match inp.readContent with
      | none => (s, ⟨true, none⟩)
      | some content =>
        match inp.pushResult with
        | .error _ => (s, ⟨true, some ⟨encryptEnv content projectKey nonce, none⟩⟩)
        | .ok v =>
          ({ s with localVersion := v },
           ⟨true, some ⟨encryptEnv content projectKey nonce, none⟩⟩)
    else (s, ⟨true, none⟩)

/-- C9: while `isPushing` or `isPrompting` is set, a timer poll tick
returns immediately (no fetch, no write, state unchanged) and a local
file-change event is ignored (no prompt, no push, state unchanged), so a
remote-triggered overwrite and a user-triggered push cannot interleave in
this session's atomic event model. -/
theorem c9_watch_mutual_exclusion (projectKey nonce : Bytes) (s : WatchState)
    (pi : PollInput) (fi : FileInput)
    (h : s.isPushing = true ∨ s.isPrompting = true) :
    pollTick projectKey s pi = (s, ⟨false, none⟩)
  ∧ fileChangeEvent projectKey nonce s fi = (s, ⟨false, none⟩) := by
  have hb : (s.isPushing || s.isPrompting) = true := by
    rcases h with h | h <;> simp [h]
  constructor
  · unfold pollTick
    rw [if_pos hb]
  · unfold fileChangeEvent
    rw [if_pos hb]

/-- Witness for C9 at a concrete in-flight-prompt state. -/
theorem c9_watch_mutual_exclusion_witness :
    pollTick pkW ⟨3, false, true⟩ ⟨.ok 5, .error (.fail 0)⟩
      = (⟨3, false, true⟩, ⟨false, none⟩)
  ∧ fileChangeEvent pkW nonceW ⟨3, false, true⟩ ⟨("y"), some ("A=1"), .ok 4⟩
      = (⟨3, false, true⟩, ⟨false, none⟩) :=
  c9_watch_mutual_exclusion pkW nonceW ⟨3, false, true⟩ ⟨.ok 5, .error (.fail 0)⟩
    ⟨("y"), some ("A=1"), .ok 4⟩ (Or.inr rfl)
